import Mathlib

/-!
Verification of the mock gRPC server (`src/mock_server.rs`).

Bytes are modelled as `Nat` (the Rust code moves `u8` values without
arithmetic; where the protobuf varint reader masks a byte the model applies
the same mask, so all definitions are total on `Nat`).  Fallible Rust code
is modelled with `Except`; a Rust `panic!` is modelled with an explicit
`panic` constructor carrying the panic message.
-/

deriving instance DecidableEq for Except

namespace WiremockGrpc

/-- `tonic::Code`, the gRPC status codes (`Code::Ok`, `Code::NotFound`, ...). -/
inductive Code where
  | ok
  | cancelled
  | unknown
  | invalidArgument
  | deadlineExceeded
  | notFound
  | alreadyExists
  | permissionDenied
  | resourceExhausted
  | failedPrecondition
  | aborted
  | outOfRange
  | unimplemented
  | internal
  | unavailable
  | dataLoss
  | unauthenticated
  deriving DecidableEq

/-- The numeric value of a status code (`code as u32` at src/mock_server.rs:122). -/
def codeToNat : Code → Nat
  | .ok => 0
  | .cancelled => 1
  | .unknown => 2
  | .invalidArgument => 3
  | .deadlineExceeded => 4
  | .notFound => 5
  | .alreadyExists => 6
  | .permissionDenied => 7
  | .resourceExhausted => 8
  | .failedPrecondition => 9
  | .aborted => 10
  | .outOfRange => 11
  | .unimplemented => 12
  | .internal => 13
  | .unavailable => 14
  | .dataLoss => 15
  | .unauthenticated => 16

/-- `tonic::Status`: a gRPC status code together with a message string. -/
structure Status where
  code : Code
  message : String
  deriving DecidableEq

/-- The protobuf wire types, as in prost `encoding::WireType`. -/
inductive WireType where
  | varint
  | sixtyFourBit
  | lengthDelimited
  | startGroup
  | endGroup
  | thirtyTwoBit
  deriving DecidableEq

/-- prost `WireType::try_from`: wire-type number to `WireType`, values 6 and 7
are invalid. -/
def WireType.fromNat : Nat → Except String WireType
  | 0 => .ok .varint
  | 1 => .ok .sixtyFourBit
  | 2 => .ok .lengthDelimited
  | 3 => .ok .startGroup
  | 4 => .ok .endGroup
  | 5 => .ok .thirtyTwoBit
  | _ => .error ("invalid wire type value")

/-- Loop of prost `decode_varint`: little-endian base-128, at most 10 bytes,
the 10th byte at most 1 (u64 overflow), error on a truncated buffer.
`count` is the number of bytes already consumed, `acc` the value so far. -/
def decodeVarintLoop : List Nat → Nat → Nat → Except String (Nat × List Nat)
  | [], _, _ => .error ("invalid varint")
  | b :: rest, count, acc =>
    if count ≥ 10 then .error ("invalid varint")
    else
      let acc := acc + (b % 128) * 2 ^ (7 * count)
      if b % 256 < 128 then
        if count = 9 ∧ b % 256 > 1 then .error ("invalid varint")
        else .ok (acc % 2 ^ 64, rest)
      else decodeVarintLoop rest (count + 1) acc

/-- prost `decode_varint` on a byte buffer: the decoded value and the rest of
the buffer. -/
def decodeVarint (buf : List Nat) : Except String (Nat × List Nat) :=
  decodeVarintLoop buf 0 0

/-- prost `decode_key`: a varint key, split into the field tag (`key >> 3`,
which must be at least 1 and fit in u32) and the wire type (`key & 7`). -/
def decodeKey (buf : List Nat) : Except String ((Nat × WireType) × List Nat) := do
  let (key, rest) ← decodeVarint buf
  if key > 4294967295 then throw ("invalid key value")
  let wt ← WireType.fromNat (key % 8)
  let tag := key / 8
  if tag < 1 then throw ("invalid tag value: 0")
  return ((tag, wt), rest)

mutual

/-- prost `skip_field`: skip one field's value of the given wire type.  The
`fuel` argument makes the group recursion structural; callers pass at least
`buf.length + 1`, which a run can never exhaust since every recursive step
consumes at least one byte (an exhausted fuel is reported as an error, like
prost's own recursion limit). -/
def skipField : Nat → WireType → Nat → List Nat → Except String (List Nat)
  | 0, _, _, _ => .error ("recursion limit reached")
  | Nat.succ fuel, wt, tag, buf =>
    match wt with
    | .varint => do
      let (_, rest) ← decodeVarint buf
      return rest
    | .thirtyTwoBit =>
      if buf.length < 4 then .error ("buffer underflow") else .ok (buf.drop 4)
    | .sixtyFourBit =>
      if buf.length < 8 then .error ("buffer underflow") else .ok (buf.drop 8)
    | .lengthDelimited => do
      let (len, rest) ← decodeVarint buf
      if len > rest.length then throw ("buffer underflow")
      return rest.drop len
    | .startGroup => skipGroup fuel tag buf
    | .endGroup => .error ("unexpected end group tag")

/-- The group-skipping loop inside prost `skip_field`: read keys and skip
fields until the matching end-group key. -/
def skipGroup : Nat → Nat → List Nat → Except String (List Nat)
  | 0, _, _ => .error ("recursion limit reached")
  | Nat.succ fuel, tag, buf => do
    let ((tag2, wt2), rest) ← decodeKey buf
    match wt2 with
    | .endGroup =>
      if tag2 = tag then return rest else throw ("unexpected end group tag")
    | _ => do
      let rest2 ← skipField fuel wt2 tag2 rest
      skipGroup fuel tag rest2

end

/-- The merge loop of prost `Message::decode` for `Vec<u8>` (prost's
`google.protobuf.BytesValue` wrapper impl in `wrappers.rs`): while bytes
remain, read a key; field 1 must be length-delimited and replaces the value
(`bytes::merge`), any other field is skipped. -/
def mergeLoop : Nat → List Nat → List Nat → Except String (List Nat)
  | _, value, [] => .ok value
  | 0, _, _ => .error ("recursion limit reached")
  | Nat.succ fuel, value, b :: bs => do
    let ((tag, wt), rest) ← decodeKey (b :: bs)
    if tag = 1 then
      match wt with
      | .lengthDelimited => do
        let (len, rest2) ← decodeVarint rest
        if len > rest2.length then throw ("buffer underflow")
        mergeLoop fuel (rest2.take len) (rest2.drop len)
      | _ => throw ("invalid wire type")
    else do
      let rest2 ← skipField fuel wt tag rest
      mergeLoop fuel value rest2

/-- prost `Message::decode::<Vec<u8>>`: merge into the default (empty) value.
This is the external library call made at src/mock_server.rs:231. -/
def prostDecodeBytesValue (buf : List Nat) : Except String (List Nat) :=
  mergeLoop (buf.length + 1) [] buf

/-- `from_decode_error` (src/mock_server.rs:239-243): map a protobuf parse
error to a `tonic::Status` with code `Internal` carrying the error message. -/
def from_decode_error (error : String) : Status :=
  { code := Code.internal, message := error }

/-- `GenericProstDecoder::decode` (src/mock_server.rs:227-237):
`Message::decode(buf).map(Option::Some).map_err(from_decode_error)`. -/
def GenericProstDecoder.decode (buf : List Nat) : Except Status (Option (List Nat)) :=
  match prostDecodeBytesValue buf with
  | .ok item => .ok (some item)
  | .error e => .error (from_decode_error e)

/-- `GenericProstEncoder::encode` (src/mock_server.rs:199-216): push every
byte of the item into a fresh `BytesMut`, then copy every byte of that buffer
into the output buffer, and return `Ok`.  `buf` is the output buffer's prior
contents; the result is its new contents. -/
def GenericProstEncoder.encode (item : List Nat) (buf : List Nat) :
    Except Status (List Nat) :=
  let b := item.foldl (fun acc i => acc ++ [i]) []
  let out := b.foldl (fun acc i => acc ++ [i]) buf
  .ok out

/-- Encode into an empty output buffer and feed the resulting bytes to the
decoder: the composition the framing round-trip law is about. -/
def roundTrip (bytes : List Nat) : Except Status (Option (List Nat)) :=
  match GenericProstEncoder.encode bytes [] with
  | .ok out => GenericProstDecoder.decode out
  | .error e => .error e

/-- Result of a Rust call that can `panic!`: either the value or the panic
message. -/
inductive PanicOr (α : Type) where
  | panic (msg : String)
  | ok (a : α)
  deriving DecidableEq

/-- `RequestBuilder` (src/mock_server.rs:245-250): a rule being configured,
and once mounted, a rule of the table. -/
structure RequestBuilder where
  path : String
  status_code : Option Code
  result : Option (List Nat)
  deriving DecidableEq

/-- `RequestBuilder::given` (src/mock_server.rs:253-259). -/
def RequestBuilder.given (path : String) : RequestBuilder :=
  { path := path, status_code := none, result := none }

/-- `RequestBuilder::when` (src/mock_server.rs:261-263): the body is
`todo!()`, which panics with the message below. -/
def RequestBuilder.when (_b : RequestBuilder) : PanicOr RequestBuilder :=
  .panic ("not yet implemented")

/-- `RequestBuilder::return_status` (src/mock_server.rs:265-270). -/
def RequestBuilder.return_status (b : RequestBuilder) (status : Code) :
    RequestBuilder :=
  { b with status_code := some status }

/-- `RequestBuilder::return_body` (src/mock_server.rs:272-288); the closure's
result is prost-encoded by the fixture before the builder stores it, so the
model takes the already-encoded bytes. -/
def RequestBuilder.return_body (b : RequestBuilder) (encoded : List Nat) :
    RequestBuilder :=
  { b with result := some encoded }

/-- `RequestBuilder::mount` (src/mock_server.rs:290-296): panic when neither
the status code nor the body is set, else push the rule onto the server's
rule table.  Returns the panic-or-unit outcome together with the table after
the call (unchanged when the panic fires, since the push is never reached). -/
def RequestBuilder.mount (b : RequestBuilder) (rules : List RequestBuilder) :
    PanicOr Unit × List RequestBuilder :=
  if b.status_code.isNone && b.result.isNone then
    (.panic ("Must set the status code or body before attempting to mount the rule."),
     rules)
  else
    (.ok (), rules ++ [b])

/-- A gRPC-level response as the dispatcher produces it: the HTTP status, the
value of the `grpc-status` header or trailer, and the unary message body at
the codec level (the bytes handed to the codec, before tonic's 5-byte
message-frame prefix). -/
structure GrpcResponse where
  httpStatus : Nat
  grpcStatus : Nat
  body : List Nat
  deriving DecidableEq

/-- What one invocation of the dispatcher does: return a response, or panic
(abort the serving task). -/
inductive DispatchOutcome where
  | response (r : GrpcResponse)
  | panic (msg : String)
  deriving DecidableEq

/-- `SvcGeneric`'s `UnaryService::call` (src/mock_server.rs:155-165): ignore
the request message and return the stored bytes with an `Ok` status. -/
def SvcGeneric.call (stored _reqMsg : List Nat) : Except Status (List Nat) :=
  .ok stored

/-- tonic's `Grpc::unary` pipeline applied to `SvcGeneric` and `GenericCodec`
(src/mock_server.rs:130-138).  Modelled from tonic (an external dependency):
decode the request message with the codec's decoder (a decode failure becomes
a response carrying that error status and no body; a missing message becomes
an internal status), call the service, encode its reply with the codec's
encoder, and emit the reply with the `Ok` status code of the service's
successful result as the `grpc-status` trailer.  `reqMsg` is the inbound
message's bytes with tonic's 5-byte frame prefix already stripped. -/
def grpcUnary (stored reqMsg : List Nat) : GrpcResponse :=
  match GenericProstDecoder.decode reqMsg with
  | .error st => { httpStatus := 200, grpcStatus := codeToNat st.code, body := [] }
  | .ok none => { httpStatus := 200, grpcStatus := codeToNat Code.internal, body := [] }
  | .ok (some req) =>
    match SvcGeneric.call stored req with
    | .error st => { httpStatus := 200, grpcStatus := codeToNat st.code, body := [] }
    | .ok reply =>
      match GenericProstEncoder.encode reply [] with
      | .error st => { httpStatus := 200, grpcStatus := codeToNat st.code, body := [] }
      | .ok out => { httpStatus := 200, grpcStatus := codeToNat Code.ok, body := out }

/-- `MockGrpcServer`'s state as the dispatcher sees it: the rule table behind
the `Arc<RwLock<Vec<RequestBuilder>>>`. -/
structure MockGrpcServer where
  rules : List RequestBuilder
  deriving DecidableEq

/-- The rule lookup of `call` (src/mock_server.rs:120):
`inner.iter().find(|x| x.path == path)`. -/
def findRule (rules : List RequestBuilder) (path : String) :
    Option RequestBuilder :=
  rules.find? (fun x => x.path == path)

/-- `MockGrpcServer::call` (src/mock_server.rs:109-152): look the path up in
the rule table; on a match with a body, answer through tonic's generic unary
pipeline (note the source drops the response builder carrying the
`grpc-status` header in this branch, so the pipeline's own `Ok` trailer is
what goes out); on a match without a body, answer with an empty body and the
`grpc-status` header set to the rule's status or `Ok`; on no match, panic.
The second component is the rule table after the call (the code only takes a
read lock). -/
def MockGrpcServer.call (s : MockGrpcServer) (path : String)
    (reqMsg : List Nat) : DispatchOutcome × MockGrpcServer :=
  match findRule s.rules path with
  | some rb =>
    let status := codeToNat (rb.status_code.getD Code.ok)
    match rb.result with
    | some body => (.response (grpcUnary body reqMsg), s)
    | none =>
      (.response { httpStatus := 200, grpcStatus := status, body := [] }, s)
  | none => (.panic ("Mock is not setup for " ++ path), s)

/-- The invariant mount-time validation establishes: every rule of the table
has a status code or a body. -/
def ValidTable (rules : List RequestBuilder) : Prop :=
  ∀ r ∈ rules, r.status_code.isSome ∨ r.result.isSome

/-! Helper lemmas shared by the claim theorems. -/

/-- Folding the byte-by-byte push of the encoder appends the list to the
accumulator. -/
theorem foldl_append_singleton (l : List Nat) (init : List Nat) :
    l.foldl (fun acc i => acc ++ [i]) init = init ++ l := by
  induction l generalizing init with
  | nil => simp
  | cons a t ih => simp [List.foldl_cons, ih]

/-- The encoder appends exactly the item's bytes to the output buffer. -/
theorem encode_spec (item buf : List Nat) :
    GenericProstEncoder.encode item buf = Except.ok (buf ++ item) := by
  simp [GenericProstEncoder.encode, foldl_append_singleton]

/-- Unfolding of the rule lookup over a cons cell. -/
theorem findRule_cons (a : RequestBuilder) (rest : List RequestBuilder)
    (p : String) :
    findRule (a :: rest) p = if a.path = p then some a else findRule rest p := by
  by_cases h : a.path = p <;> simp [findRule, List.find?_cons, h]

/-- A successful lookup returns an element of the table. -/
theorem findRule_mem (rules : List RequestBuilder) (p : String)
    (r : RequestBuilder) (h : findRule rules p = some r) : r ∈ rules :=
  List.mem_of_find?_eq_some h

/-- A lookup misses exactly when no rule of the table carries the path. -/
theorem findRule_eq_none (rules : List RequestBuilder) (p : String)
    (h : ∀ r ∈ rules, r.path ≠ p) : findRule rules p = none := by
  apply List.find?_eq_none.mpr
  intro x hx
  simpa using h x hx

/-- A successful mount keeps the table valid: the new rule passed the
status-or-body check, every old rule was already valid. -/
theorem mount_preserves_ValidTable (b : RequestBuilder)
    (rules : List RequestBuilder) (hv : ValidTable rules)
    (hok : (b.mount rules).1 = PanicOr.ok ()) :
    ValidTable (b.mount rules).2 := by
  rcases b with ⟨p, sc, res⟩
  cases sc <;> cases res <;>
    simp_all [RequestBuilder.mount, ValidTable] <;>
    (intro r hr; rcases hr with hr | hr) <;>
    first
      | exact hv r hr
      | (subst hr; simp)

/-! The claim theorems. -/

/-- Claim C1 (code-bug demonstration).  The claim states that a call matching
a rule with a payload carries the rule's configured status as the status
trailer (NotFound = 5 here).  The code instead answers through the generic
unary pipeline, which emits the `Ok` (0) trailer of `SvcGeneric`'s successful
result; the response builder holding the `grpc-status` header built at
src/mock_server.rs:124 is discarded in the payload branch.  The payload bytes
themselves do come back unmodified. -/
theorem claim_C1_payload_branch_emits_ok_status :
    ((MockGrpcServer.mk
        [⟨"/svc/Ping", some Code.notFound, some [10, 2, 104, 105]⟩]).call
        "/svc/Ping" []).1
      = DispatchOutcome.response
          { httpStatus := 200, grpcStatus := codeToNat Code.ok
            body := [10, 2, 104, 105] }
    ∧ codeToNat Code.ok = 0 ∧ codeToNat Code.notFound = 5 :=
  ⟨by decide, rfl, rfl⟩

/-- Claim C2 (counterexample).  Encode-then-decode is not the identity: the
encoder writes the bytes unchanged, but the decoder parses them as a protobuf
wrapper message, so for the byte sequence `[1]` (field number 0, which the
wire format forbids) the round trip fails instead of yielding `[1]`. -/
theorem claim_C2_counterexample :
    roundTrip [1]
      = Except.error { code := Code.internal, message := "invalid tag value: 0" }
    ∧ roundTrip [1] ≠ Except.ok (some [1]) :=
  ⟨rfl, by decide⟩

/-- Claim C2 (amended).  The encoder is a byte-level pass-through that adds
no framing, so encode-then-decode equals bare decoding, which applies
protobuf wrapper-message parsing rather than returning the input; the round
trip therefore holds for the empty sequence but not in general. -/
theorem claim_C2_encode_then_decode (b : List Nat) :
    GenericProstEncoder.encode b [] = Except.ok b
    ∧ roundTrip b = GenericProstDecoder.decode b
    ∧ roundTrip [] = Except.ok (some []) := by
  have he : GenericProstEncoder.encode b [] = Except.ok b := by
    simpa using encode_spec b []
  refine ⟨he, ?_, rfl⟩
  unfold roundTrip
  rw [he]

/-- Claim C3.  Mounting succeeds, appending the rule to the table, exactly
when the rule has a status or a payload; with neither set it fails
synchronously (the `InvalidRule` validation failure, a panic in the code)
and the table is unchanged. -/
theorem claim_C3_mount_validation (b : RequestBuilder)
    (rules : List RequestBuilder) :
    ((b.mount rules).1 = PanicOr.ok () ↔
        (b.status_code.isSome ∨ b.result.isSome))
    ∧ ((b.mount rules).1 = PanicOr.ok () → (b.mount rules).2 = rules ++ [b])
    ∧ (b.status_code = none → b.result = none →
        (b.mount rules).1 = PanicOr.panic
          ("Must set the status code or body before attempting to mount the rule.")
        ∧ (b.mount rules).2 = rules) := by
  rcases b with ⟨p, sc, res⟩
  cases sc <;> cases res <;> simp [RequestBuilder.mount]

/-- Claim C4.  A call whose path matches no mounted rule makes the dispatcher
panic with the unmatched path in the message — it aborts the handling task
and, the outcome being the `panic` constructor, returns no response. -/
theorem claim_C4_unmatched_path_panics (s : MockGrpcServer) (p : String)
    (req : List Nat) (h : ∀ r ∈ s.rules, r.path ≠ p) :
    (s.call p req).1 = DispatchOutcome.panic ("Mock is not setup for " ++ p) := by
  have hf : findRule s.rules p = none := findRule_eq_none s.rules p h
  unfold MockGrpcServer.call
  rw [hf]

/-- Witness for claim C4: an empty table and the path of spec scenario C. -/
theorem claim_C4_witness :
    ((MockGrpcServer.mk []).call "/svc/Unknown" []).1
      = DispatchOutcome.panic ("Mock is not setup for " ++ "/svc/Unknown") :=
  claim_C4_unmatched_path_panics ⟨[]⟩ "/svc/Unknown" []
    (by intro r hr; cases hr)

/-- Claim C5.  The lookup scans the table in insertion order and returns the
first rule whose path equals the argument exactly: a returned rule carries
the path and is preceded only by rules with other paths, and conversely the
first rule with the path is the one returned — so of several rules sharing a
path, the first mounted wins. -/
theorem claim_C5_find_first_exact_match (rules : List RequestBuilder)
    (p : String) :
    (∀ r, findRule rules p = some r →
        r.path = p ∧ ∃ pre post, rules = pre ++ r :: post
          ∧ ∀ r2 ∈ pre, r2.path ≠ p)
    ∧ (∀ pre r post, rules = pre ++ r :: post → r.path = p →
        (∀ r2 ∈ pre, r2.path ≠ p) → findRule rules p = some r) := by
  constructor
  · induction rules with
    | nil => intro r h; simp [findRule] at h
    | cons a rest ih =>
      intro r h
      rw [findRule_cons] at h
      by_cases hp : a.path = p
      · rw [if_pos hp] at h
        obtain rfl : a = r := by injection h
        exact ⟨hp, [], rest, rfl, by simp⟩
      · rw [if_neg hp] at h
        obtain ⟨hr, pre, post, hsplit, hpre⟩ := ih r h
        refine ⟨hr, a :: pre, post, by rw [hsplit]; rfl, ?_⟩
        intro r2 hr2
        rcases List.mem_cons.mp hr2 with rfl | hmem
        · exact hp
        · exact hpre r2 hmem
  · intro pre r post hsplit hr hpre
    subst hsplit
    induction pre with
    | nil => rw [List.nil_append, findRule_cons, if_pos hr]
    | cons a pres ih =>
      rw [List.cons_append, findRule_cons, if_neg (hpre a (by simp))]
      exact ih (fun r2 h2 => hpre r2 (List.mem_cons_of_mem a h2))

/-- Claim C6.  The decoder is a total function (it cannot abort): on every
input buffer it either yields a decoded message or fails, and every failure
is a `tonic::Status` with code `Internal` carrying the parse error's message
(the mapping of `from_decode_error`). -/
theorem claim_C6_decode_failure_internal (buf : List Nat) :
    (∃ v, GenericProstDecoder.decode buf = Except.ok (some v))
    ∨ (∃ msg, GenericProstDecoder.decode buf
        = Except.error { code := Code.internal, message := msg }) := by
  unfold GenericProstDecoder.decode
  cases prostDecodeBytesValue buf with
  | ok v => exact Or.inl ⟨v, rfl⟩
  | error e => exact Or.inr ⟨e, rfl⟩

/-- Claim C7.  Under the table invariant that mount-time validation
establishes (see `mount_preserves_ValidTable`), a call matching a rule
without a payload gets an empty body and the `grpc-status` trailer set to
exactly the rule's status; the rule necessarily has one — the
no-payload-and-no-status state is unreachable. -/
theorem claim_C7_no_payload_uses_status (s : MockGrpcServer) (p : String)
    (req : List Nat) (r : RequestBuilder) (hvalid : ValidTable s.rules)
    (hfind : findRule s.rules p = some r) (hres : r.result = none) :
    ∃ c, r.status_code = some c
      ∧ (s.call p req).1 = DispatchOutcome.response
          { httpStatus := 200, grpcStatus := codeToNat c, body := [] } := by
  rcases hvalid r (findRule_mem s.rules p r hfind) with hs | hb
  · obtain ⟨c, hc⟩ := Option.isSome_iff_exists.mp hs
    refine ⟨c, hc, ?_⟩
    unfold MockGrpcServer.call
    rw [hfind]
    simp [hres, hc]
  · rw [hres] at hb
    simp at hb

/-- Witness for claim C7: spec scenario B, a rule with status NotFound and no
payload. -/
theorem claim_C7_witness :
    ∃ c, (RequestBuilder.mk "/svc/Fail" (some Code.notFound) none).status_code
        = some c
      ∧ ((MockGrpcServer.mk
            [⟨"/svc/Fail", some Code.notFound, none⟩]).call "/svc/Fail" []).1
          = DispatchOutcome.response
              { httpStatus := 200, grpcStatus := codeToNat c, body := [] } :=
  claim_C7_no_payload_uses_status
    ⟨[⟨"/svc/Fail", some Code.notFound, none⟩]⟩ "/svc/Fail" []
    ⟨"/svc/Fail", some Code.notFound, none⟩
    (by intro r hr; rw [List.mem_singleton] at hr; subst hr; exact Or.inl rfl)
    (by decide) rfl

/-- Claim C8.  On every input the encoder returns `Ok` and writes exactly the
input bytes after the output buffer's prior contents, with no validation or
modification — in particular the `EncodeFailure` (`Except.error`) branch is
never taken. -/
theorem claim_C8_encoder_identity (item buf : List Nat) :
    GenericProstEncoder.encode item buf = Except.ok (buf ++ item) :=
  encode_spec item buf

/-- Claim C9.  Dispatch never mutates the rule table: whatever the path and
request, the table after a call is the table before it. -/
theorem claim_C9_dispatch_preserves_table (s : MockGrpcServer) (p : String)
    (req : List Nat) :
    ((s.call p req).2).rules = s.rules := by
  unfold MockGrpcServer.call
  cases findRule s.rules p with
  | none => rfl
  | some rb =>
    rcases rb with ⟨pa, sc, res⟩
    cases res <;> rfl

/-- Claim C10.  `RequestBuilder::when` is `todo!()`: on every builder it
panics with the `not yet implemented` message and never returns a builder. -/
theorem claim_C10_when_unimplemented (b : RequestBuilder) :
    b.when = PanicOr.panic ("not yet implemented") :=
  rfl

end WiremockGrpc
